import Mathlib

/-!
Shallow embedding of the yield-sign video tracker (`src/video.py`).

The tracker's per-frame logic (`_process`, `_scan_full`, `_scan_roi`,
`_merge_rois`, `_find_rois`, `_get_vertices`, `_draw_roi`), the top-level
`process` loop and the CLI validation (`parse_args`, `load`, `main`) are
translated from the source.  The `video.ROI` class, the `video.Buffer`
class and the `video.Pipeline` flag semantics live in a module that is not
part of the sources; those pieces are modelled from the spec and are
marked as such in their doc comments.

Frames are modelled as total functions from integer (row, col)
coordinates to integer pixel values; numpy slice assignment becomes a
function update restricted to the slice rectangle, and the skimage
drawing primitives used by `_draw_roi` become explicit coordinate
predicates (polygon_perimeter on an axis-aligned rectangle with vertices
clipped to the image shape; skimage's filled circle, which contains the
pixels at squared distance strictly below radius^2; and the Bresenham
midpoint circle perimeter, which for radius 5 is exactly the set of
pixels at squared distance in [25, 29]).
-/

namespace Video

/-- A single-channel frame: pixel value at integer (row, col). -/
abbrev Gray := Int → Int → Int

/-- A (row, col) point. -/
abbrev Pt := Int × Int

/-- A triple of detection keys (`p0, p1, p2` in `_get_vertices`). -/
abbrev Keys := Nat × Nat × Nat

/-- The points-of-interest mapping: `pois[a][b]` is a (row, col) point.
The caller guarantees the backend supplies all required pairs, so the
mapping is modelled as a total function. -/
abbrev Pois := Nat → Nat → Pt

/-- Three integer coordinates (the rows `vy`, resp. columns `vx`, of the
triangle vertices). -/
abbrev Triple := Int × Int × Int

/-- `ROI_LIFESPAN = 30` from `src/video.py`. -/
def ROI_LIFESPAN : Int := 30

/-- The tracked-region entity of `src/video.py`.  The field names follow
the attributes accessed by the source (`r0, r1, c0, c1` bounding box,
`vy, vx` triangle vertices, `health`); `w, h` are the frame extents the
constructor received and `y, x` the barycenter it received. -/
structure ROI where
  w : Int
  h : Int
  y : Int
  x : Int
  vy : Triple
  vx : Triple
  health : Int
  r0 : Int
  r1 : Int
  c0 : Int
  c1 : Int
deriving DecidableEq

/-- Modelled from the spec: the `video.ROI` class is not under `src/`;
§3 derives the bounding box "from a detected barycenter and a fixed or
adaptive margin".  We fix the margin at 20 pixels. -/
def ROI_MARGIN : Int := 20

/-- Clamp `z` into `[lo, hi]`. -/
def clampI (lo hi z : Int) : Int := max lo (min hi z)

/-- Modelled from the spec: the `video.ROI` constructor is not under
`src/`.  Per §3 it stores the barycenter, vertices and health it is
given, and derives the bounding box from the barycenter with a fixed
margin, keeping both bounds inside `[0, frameExtent)`. -/
def ROI.make (w h y x : Int) (vy vx : Triple) (health : Int) : ROI :=
  { w := w, h := h, y := y, x := x, vy := vy, vx := vx, health := health,
    r0 := clampI 0 (w - 1) (y - ROI_MARGIN),
    r1 := clampI 0 (w - 1) (y + ROI_MARGIN),
    c0 := clampI 0 (h - 1) (x - ROI_MARGIN),
    c1 := clampI 0 (h - 1) (x + ROI_MARGIN) }

/-- Modelled from the spec: `video.ROI.intersects` is not under `src/`.
Per §4.1 it is the strict axis-aligned rectangle overlap test (touching
edges count as non-overlap). -/
def ROI.intersects (a b : ROI) : Bool :=
  decide (a.r0 < b.r1) && decide (b.r0 < a.r1) &&
  decide (a.c0 < b.c1) && decide (b.c0 < a.c1)

/-- Modelled from the spec: `video.ROI.dead` is not under `src/`.  Per
§3 a region is dead when `health == 0`. -/
def ROI.dead (r : ROI) : Bool := decide (r.health = 0)

/-- Modelled from the spec: `video.ROI.punish` is not under `src/`.  Per
§4.3 punishment decrements the health counter by one and changes nothing
else. -/
def ROI.punish (r : ROI) : ROI := { r with health := r.health - 1 }

/-- The external pipeline backend together with its two short-circuit
flags (`pipe.binary`, `pipe.edges` in the source). -/
structure Pipeline where
  binary : Bool
  edges : Bool
  binarize : Gray → Gray
  edge : Gray → Gray
  detect : Gray → Gray → List (Keys × Pt) × Pois

/-- The two per-frame working frames of the buffer that `_scan_full` and
`_scan_roi` write into at the current frame index. -/
structure FrameBufs where
  binary : Gray
  edges : Gray

/-- Modelled from the spec: the `video.Buffer` class is not under
`src/`; per §4.4 the `binary`/`edges` frames start zero-filled. -/
def initBufs : FrameBufs := { binary := fun _ _ => 0, edges := fun _ _ => 0 }

/-- numpy slice assignment `dst[r0:r1, c0:c1] = g`: inside the slice the
new content (in slice-local coordinates), outside the old frame. -/
def writeSlice (f : Gray) (r0 r1 c0 c1 : Int) (g : Gray) : Gray :=
  fun r c =>
    if r0 ≤ r ∧ r < r1 ∧ c0 ≤ c ∧ c < c1 then g (r - r0) (c - c0) else f r c

/-- numpy slice read `f[r0:, c0:]` in slice-local coordinates. -/
def subFrame (f : Gray) (r0 c0 : Int) : Gray := fun r c => f (r0 + r) (c0 + c)

/-- `0 ≤ r < sr ∧ 0 ≤ c < sc`: the point lies inside an image of shape
`(sr, sc)`. -/
def inShapeB (sr sc r c : Int) : Bool :=
  decide (0 ≤ r) && decide (r < sr) && decide (0 ≤ c) && decide (c < sc)

/-- `skimage.draw.polygon_perimeter` on the axis-aligned rectangle with
corners `(y0, x0)`/`(y1, x1)`, with the vertex coordinates clipped to
the image shape: the union of the four edge segments of the clipped
rectangle. -/
def onRectPerimeter (sr sc y0 y1 x0 x1 r c : Int) : Bool :=
  let ry0 := clampI 0 (sr - 1) y0
  let ry1 := clampI 0 (sr - 1) y1
  let rx0 := clampI 0 (sc - 1) x0
  let rx1 := clampI 0 (sc - 1) x1
  ((decide (r = ry0) || decide (r = ry1)) &&
     decide (rx0 ≤ c) && decide (c ≤ rx1)) ||
  ((decide (c = rx0) || decide (c = rx1)) &&
     decide (ry0 ≤ r) && decide (r ≤ ry1))

/-- `skimage.draw.circle(cy, cx, 5, shape)`: the pixels inside the image
whose squared distance from the center is strictly below `25`. -/
def inDisc5 (sr sc cy cx r c : Int) : Bool :=
  inShapeB sr sc r c &&
  decide ((r - cy) * (r - cy) + (c - cx) * (c - cx) < 25)

/-- `skimage.draw.circle_perimeter(cy, cx, 5)` (no shape clipping): the
Bresenham midpoint circle of radius 5, which is exactly the set of
pixels whose squared distance from the center lies in `[25, 29]`. -/
def onCircPerimeter5 (cy cx r c : Int) : Bool :=
  decide (25 ≤ (r - cy) * (r - cy) + (c - cx) * (c - cx)) &&
  decide ((r - cy) * (r - cy) + (c - cx) * (c - cx) ≤ 29)

/-- `_draw_roi(arr, i, roi, val)` from `src/video.py`, acting on the
single frame `f` of shape `(sr, sc)`: draws the rectangle perimeter one
pixel outside the bounding box with value `val`, then the filled decay
disc of radius 5 at the top-left corner with value
`val * health / ROI_LIFESPAN` (Python computes this scaling in floating
point and numpy truncates on store; integer floor division agrees on the
values reached here), then the disc outline with value `val`.  Later
writes overwrite earlier ones. -/
def _draw_roi (sr sc : Int) (f : Gray) (roi : ROI) (val : Int) : Gray :=
  let y0 := roi.r0 - 1
  let y1 := roi.r1
  let x0 := roi.c0 - 1
  let x1 := roi.c1
  fun r c =>
    if onCircPerimeter5 y0 x0 r c then val
    else if inDisc5 sr sc y0 x0 r c then val * roi.health / ROI_LIFESPAN
    else if onRectPerimeter sr sc y0 y1 x0 x1 r c then val
    else f r c

/-- `_get_vertices(keys, pois)` from `src/video.py`: looks up the pairs
`(p0,p1), (p0,p2), (p1,p2)` and returns the rows and columns of the
three vertices separately. -/
def _get_vertices (keys : Keys) (pois : Pois) : Triple × Triple :=
  let a := pois keys.1 keys.2.1
  let b := pois keys.1 keys.2.2
  let c := pois keys.2.1 keys.2.2
  ((a.1, b.1, c.1), (a.2, b.2, c.2))

/-- `_find_rois(buf, frame, barycenters, pois)` from `src/video.py`:
every detection becomes a fresh `ROI` with health `ROI_LIFESPAN`,
appended unconditionally. -/
def _find_rois (w h : Int) (barycenters : List (Keys × Pt)) (pois : Pois) :
    List ROI :=
  barycenters.map fun bc =>
    let v := _get_vertices bc.1 pois
    ROI.make w h bc.2.1 bc.2.2 v.1 v.2 ROI_LIFESPAN

/-- `_scan_full(buf, frame, i, pipe)` from `src/video.py`, acting on the
frame-`i` buffers: binarize and store; in binary-only mode stop with no
detections; otherwise run edge detection and store; in edges mode stop
with no detections; otherwise detect and convert via `_find_rois`. -/
def _scan_full (w h : Int) (bufs : FrameBufs) (frame : Gray)
    (pipe : Pipeline) : FrameBufs × List ROI :=
  let segments := pipe.binarize frame
  let bufs1 : FrameBufs := { bufs with binary := segments }
  if pipe.binary && !pipe.edges then (bufs1, [])
  else
    let edges := pipe.edge segments
    let bufs2 : FrameBufs := { bufs1 with edges := edges }
    if pipe.edges then (bufs2, [])
    else
      let d := pipe.detect edges segments
      (bufs2, _find_rois w h d.1 d.2)

/-- The binary buffer frame after the restricted scan of `roi`: the
binarized raw sub-frame is written into the bounding-box slice, then
`_draw_roi` stamps the marker (value 255) onto the buffer frame. -/
def scanRoiBinary (sr sc : Int) (binaryBuf frame : Gray) (pipe : Pipeline)
    (roi : ROI) : Gray :=
  _draw_roi sr sc
    (writeSlice binaryBuf roi.r0 roi.r1 roi.c0 roi.c1
      (pipe.binarize (subFrame frame roi.r0 roi.c0)))
    roi 255

/-- The edges buffer frame after the restricted scan of `roi`: the edge
stage is applied to the (already annotated) binary buffer slice, the
result is written into the bounding-box slice of the edges buffer, then
`_draw_roi` stamps the marker onto it. -/
def scanRoiEdges (sr sc : Int) (binaryAnnotated edgesBuf : Gray)
    (pipe : Pipeline) (roi : ROI) : Gray :=
  _draw_roi sr sc
    (writeSlice edgesBuf roi.r0 roi.r1 roi.c0 roi.c1
      (pipe.edge (subFrame binaryAnnotated roi.r0 roi.c0)))
    roi 255

/-- `_scan_roi(buf, frame, i, pipe, roi)` from `src/video.py`: updates
the binary and edges buffer frames and returns
`pipe.detect(buf.edges[i, r0:r1, c0:c1], buf.binary[i, r0:r1, c0:c1])`,
i.e. `detect` applied to the annotated buffer slices. -/
def _scan_roi (sr sc : Int) (bufs : FrameBufs) (frame : Gray)
    (pipe : Pipeline) (roi : ROI) :
    FrameBufs × (List (Keys × Pt) × Pois) :=
  let b := scanRoiBinary sr sc bufs.binary frame pipe roi
  let e := scanRoiEdges sr sc b bufs.edges pipe roi
  ({ binary := b, edges := e },
   pipe.detect (subFrame e roi.r0 roi.c0) (subFrame b roi.r0 roi.c0))

/-- The replacement `ROI` built by `_merge_rois` in `src/video.py`: the
vertices of the first detection are translated into full-frame
coordinates by adding `roi.r0` to the rows and `roi.c0` to the columns,
and the new `ROI` is constructed with the (untranslated) barycenter and
health `ROI_LIFESPAN`. -/
def mergedRoi (w h : Int) (roi : ROI) (bc : Keys × Pt) (pois : Pois) : ROI :=
  let v := _get_vertices bc.1 pois
  let vy : Triple := (roi.r0 + v.1.1, roi.r0 + v.1.2.1, roi.r0 + v.1.2.2)
  let vx : Triple := (roi.c0 + v.2.1, roi.c0 + v.2.2.1, roi.c0 + v.2.2.2)
  ROI.make w h bc.2.1 bc.2.2 vy vx ROI_LIFESPAN

/-- `_merge_rois(w, h, roi, barycenter, pois, new_rois)` from
`src/video.py`: the replacement is appended only if it intersects none
of the ROIs already accepted into `new_rois`. -/
def _merge_rois (w h : Int) (roi : ROI) (bc : Keys × Pt) (pois : Pois)
    (new_rois : List ROI) : List ROI :=
  let nr := mergedRoi w h roi bc pois
  if new_rois.any (fun r => nr.intersects r) then new_rois
  else new_rois ++ [nr]

/-- A scan event of one frame: a full-frame scan, or a restricted scan
of one carried-in ROI. -/
inductive Event where
  | fullScan : Event
  | roiScan : ROI → Event
deriving DecidableEq

/-- The state threaded through the per-ROI loop of `_process`: the
frame-`i` buffers, the accepted new-ROI list, and the trace of scan
events performed so far in this frame. -/
structure StepState where
  bufs : FrameBufs
  newRois : List ROI
  trace : List Event

/-- One iteration of the `for roi in rois` loop of `_process` in
`src/video.py`: run the restricted scan; if it returned at least one
detection, merge the first one; otherwise punish and carry the ROI
forward unless it is dead. -/
def roiStep (sr sc w h : Int) (frame : Gray) (pipe : Pipeline)
    (s : StepState) (roi : ROI) : StepState :=
  let scanned := _scan_roi sr sc s.bufs frame pipe roi
  let rois' :=
    match scanned.2.1 with
    | bc :: _ => _merge_rois w h roi bc scanned.2.2 s.newRois
    | [] => if roi.dead then s.newRois else s.newRois ++ [roi.punish]
  { bufs := scanned.1, newRois := rois',
    trace := s.trace ++ [Event.roiScan roi] }

/-- `_process(buf, frame, i, pipe, rois)` from `src/video.py`: a full
scan runs first when `i % 15 == 0` or `rois` is empty and seeds the
new-ROI list, then the restricted per-ROI loop runs over the carried-in
`rois`.  The drawing block at the end of `_process` writes only to the
darkened original canvas and is not part of this embedding; it does not
touch the ROI list or the binary/edges buffers. -/
def _process (sr sc w h : Int) (bufs : FrameBufs) (frame : Gray) (i : Nat)
    (pipe : Pipeline) (rois : List ROI) : StepState :=
  let rescan := decide (i % 15 = 0)
  let no_rois := rois.isEmpty
  let init : StepState :=
    if rescan || no_rois then
      let full := _scan_full w h bufs frame pipe
      { bufs := full.1, newRois := full.2, trace := [Event.fullScan] }
    else
      { bufs := bufs, newRois := [], trace := [] }
  rois.foldl (roiStep sr sc w h frame pipe) init

/-- The external backend of the pipeline (§6): the three opaque image
operations. -/
structure Backend where
  binarize : Gray → Gray
  edge : Gray → Gray
  detect : Gray → Gray → List (Keys × Pt) × Pois

/-- The pipeline construction in `process` from `src/video.py`:
`only_binary = only_edges or only_binary`, then
`Pipeline(config, only_binary, only_edges)`. -/
def mkPipeline (be : Backend) (only_binary only_edges : Bool) : Pipeline :=
  { binary := only_edges || only_binary, edges := only_edges,
    binarize := be.binarize, edge := be.edge, detect := be.detect }

/-- The frame loop of `process` from `src/video.py`: each frame `i` is
handed the ROI list produced by frame `i - 1` (starting from `[]`), and
yields its new-ROI list and its scan-event trace. -/
def processFrames (sr sc w h : Int) (pipe : Pipeline) :
    Nat → List ROI → List Gray → List (List ROI × List Event)
  | _, _, [] => []
  | i, rois, frame :: rest =>
    let s := _process sr sc w h initBufs frame i pipe rois
    (s.newRois, s.trace) :: processFrames sr sc w h pipe (i + 1) s.newRois rest

/-- `process(vid, only, config)` from `src/video.py`, restricted to the
tracker state: builds the pipeline once from the two mode flags and runs
the frame loop from index 0 with an empty ROI list. -/
def processVideo (sr sc w h : Int) (be : Backend)
    (only_binary only_edges : Bool) (frames : List Gray) :
    List (List ROI × List Event) :=
  processFrames sr sc w h (mkPipeline be only_binary only_edges) 0 [] frames

/-- The command-line arguments of `src/video.py` after parsing:
`args.config` is `none` when `--config` was not supplied (argparse
default). -/
structure Args where
  f_in : String
  f_out : String
  config : Option (List String)
  binary : Bool
  edges : Bool
  save_all : Bool

/-- How a run of the script ends: a `sys.exit`/normal exit with a code,
or an uncaught exception (nonzero interpreter exit with a traceback). -/
inductive RunResult where
  | exited : Nat → RunResult
  | typeError : RunResult
deriving DecidableEq

/-- The flag validation of `parse_args` in `src/video.py`: `--binary`
with `--edges`, or `--save-all` with either, exits with code 2. -/
def validate_args (a : Args) : Option Nat :=
  if a.binary && a.edges then some 2
  else if a.save_all && (a.binary || a.edges) then some 2
  else none

/-- The control flow of `__main__` → `parse_args` → `main` in
`src/video.py`: flag validation first; then `main` evaluates
`len(args.config)`, which raises `TypeError` when `--config` was not
supplied (`args.config` is `None`); then the missing-`[options]`-section
check; then `load` exits with code 2 if the color depth is not 3;
otherwise the run completes and the interpreter exits with code 0. -/
def programRun (a : Args) (depth : Nat) (cfgHasOptions : Bool) : RunResult :=
  match validate_args a with
  | some code => RunResult.exited code
  | none =>
    match a.config with
    | none => RunResult.typeError
    | some cfg =>
      if 0 < cfg.length ∧ ¬cfgHasOptions then RunResult.exited 2
      else if depth ≠ 3 then RunResult.exited 2
      else RunResult.exited 0

end Video

namespace Video

/-- The per-ROI loop appends exactly one `roiScan` event per carried-in
ROI, in order, after whatever trace the initial state already holds. -/
theorem foldl_trace_eq (sr sc w h : Int) (frame : Gray) (pipe : Pipeline) :
    ∀ (l : List ROI) (s : StepState),
      (List.foldl (roiStep sr sc w h frame pipe) s l).trace =
        s.trace ++ l.map Event.roiScan
  | [], s => by simp
  | r :: rs, s => by
    rw [List.foldl_cons, foldl_trace_eq sr sc w h frame pipe rs]
    show (roiStep sr sc w h frame pipe s r).trace ++ _ = _
    simp [roiStep]

/-- Claim C1: for every frame index `i` and incoming active ROI list
`rois`, `_process` runs a full scan if and only if `i % 15 == 0` or
`rois` is empty; when triggered the full scan happens exactly once and
before the restricted per-ROI loop, and the restricted loop iterates
exactly over the carried-in `rois` (never over the ROIs produced by the
same frame's full scan). -/
theorem c1_scan_schedule (sr sc w h : Int) (bufs : FrameBufs) (frame : Gray)
    (i : Nat) (pipe : Pipeline) (rois : List ROI) :
    (_process sr sc w h bufs frame i pipe rois).trace =
      (if i % 15 = 0 ∨ rois = [] then [Event.fullScan] else []) ++
        rois.map Event.roiScan := by
  simp only [_process]
  rw [foldl_trace_eq]
  by_cases h1 : i % 15 = 0 <;> by_cases h2 : rois = [] <;>
    simp [h1, h2]

/-- One step of the per-ROI loop never removes already-accepted ROIs:
the outgoing new-ROI list extends the incoming one. -/
theorem roiStep_newRois_extends (sr sc w h : Int) (frame : Gray)
    (pipe : Pipeline) (s : StepState) (roi : ROI) :
    ∃ t, (roiStep sr sc w h frame pipe s roi).newRois = s.newRois ++ t := by
  simp only [roiStep]
  rcases hb : (_scan_roi sr sc s.bufs frame pipe roi).2.1 with _ | ⟨bc, tl⟩
  · by_cases hd : roi.dead
    · exact ⟨[], by simp [hb, hd]⟩
    · exact ⟨[roi.punish], by simp [hb, hd]⟩
  · simp only [hb, _merge_rois]
    by_cases hi : s.newRois.any (fun r =>
        (mergedRoi w h roi bc
          ((_scan_roi sr sc s.bufs frame pipe roi).2.2)).intersects r)
    · exact ⟨[], by simp [hi]⟩
    · exact ⟨[mergedRoi w h roi bc
          ((_scan_roi sr sc s.bufs frame pipe roi).2.2)], by simp [hi]⟩

/-- `--binary` together with `--edges` (invalid). -/
def argsBothFlags : Args :=
  { f_in := "i", f_out := "o", config := none, binary := true, edges := true,
    save_all := false }

/-- `--save-all` together with `--binary` (invalid). -/
def argsSaveBinary : Args :=
  { f_in := "i", f_out := "o", config := none, binary := true, edges := false,
    save_all := true }

/-- `--save-all` together with `--edges` (invalid). -/
def argsSaveEdges : Args :=
  { f_in := "i", f_out := "o", config := none, binary := false, edges := true,
    save_all := true }

/-- A valid invocation that does supply `--config`. -/
def argsWithConfig : Args :=
  { f_in := "i", f_out := "o", config := some ["c"], binary := false,
    edges := false, save_all := false }

/-- A valid invocation without `--config` (the argparse default leaves
`args.config = None`). -/
def argsNoConfig : Args :=
  { f_in := "i", f_out := "o", config := none, binary := false, edges := false,
    save_all := false }

/-- A concrete points-of-interest mapping used by counterexamples and
witnesses. -/
def poisA : Pois := fun a b => ((a : Int) + (b : Int), (a : Int) * (b : Int) + 1)

/-- A dummy ROI used as the `getD` default. -/
def dummyRoi : ROI := ROI.make 1000 1000 500 500 (0, 0, 0) (0, 0, 0) 0

/-- Two full-scan detections whose resulting bounding boxes coincide
(both barycenters at (30, 30)). -/
def c3Dets : List (Keys × Pt) := [((0, 1, 2), (30, 30)), ((3, 4, 5), (30, 30))]

/-- Claim C3 counterexample: two full-scan detections whose resulting
bounding boxes overlap are BOTH retained by `_find_rois` — the code
performs no intra-full-scan duplicate filtering, so "only the
first-processed detection is retained" is false. -/
theorem c3_counterexample :
    ((_find_rois 1000 1000 c3Dets poisA).getD 0 dummyRoi).intersects
        ((_find_rois 1000 1000 c3Dets poisA).getD 1 dummyRoi) = true ∧
    (_find_rois 1000 1000 c3Dets poisA).length = 2 := by
  constructor <;> decide

/-- Claim C3 (amended): full-scan detections are converted by the same
vertex-extraction + ROI-construction step in full-frame coordinates with
NO duplicate filtering at all — every detection is appended
unconditionally, so two overlapping full-scan detections are both
retained; and full-scan detections are never filtered against (or
removed by) the restricted-scan loop of the same frame, whose steps only
ever extend the accepted list. -/
theorem c3_full_scan_no_dedup :
    (∀ (w h : Int) (bars : List (Keys × Pt)) (pois : Pois),
        _find_rois w h bars pois = bars.map (fun bc =>
          ROI.make w h bc.2.1 bc.2.2 (_get_vertices bc.1 pois).1
            (_get_vertices bc.1 pois).2 ROI_LIFESPAN)) ∧
    (∀ (sr sc w h : Int) (frame : Gray) (pipe : Pipeline) (s : StepState)
        (roi : ROI),
        ∃ t, (roiStep sr sc w h frame pipe s roi).newRois = s.newRois ++ t) := by
  constructor
  · intro w h bars pois; rfl
  · intro sr sc w h frame pipe s roi
    exact roiStep_newRois_extends sr sc w h frame pipe s roi

/-- Claim C6: the replacement ROI built by `_merge_rois` receives its
triangle vertices translated into full-frame coordinates (`r0`/`c0`
added) but its barycenter untranslated, still in sub-region-local
coordinates; hence the barycenter a full-frame translation would give
differs from the stored one by exactly `(r0, c0)`. -/
theorem c6_barycenter_untranslated (w h : Int) (roi : ROI) (keys : Keys)
    (y x : Int) (pois : Pois) :
    (mergedRoi w h roi (keys, (y, x)) pois).y = y ∧
    (mergedRoi w h roi (keys, (y, x)) pois).x = x ∧
    (mergedRoi w h roi (keys, (y, x)) pois).vy =
      (roi.r0 + (_get_vertices keys pois).1.1,
       roi.r0 + (_get_vertices keys pois).1.2.1,
       roi.r0 + (_get_vertices keys pois).1.2.2) ∧
    (mergedRoi w h roi (keys, (y, x)) pois).vx =
      (roi.c0 + (_get_vertices keys pois).2.1,
       roi.c0 + (_get_vertices keys pois).2.2.1,
       roi.c0 + (_get_vertices keys pois).2.2.2) ∧
    (y + roi.r0) - (mergedRoi w h roi (keys, (y, x)) pois).y = roi.r0 ∧
    (x + roi.c0) - (mergedRoi w h roi (keys, (y, x)) pois).x = roi.c0 ∧
    (mergedRoi w h roi (keys, (y, x)) pois).health = ROI_LIFESPAN := by
  refine ⟨rfl, rfl, rfl, rfl, ?_, ?_, rfl⟩
  · show y + roi.r0 - y = roi.r0
    ring
  · show x + roi.c0 - x = roi.c0
    ring

/-- Claim C8: in binary-only mode the full scan writes the segmentation
into the buffer, skips the edge and detect stages (the result does not
depend on them), and returns no detections; in edges mode it runs
binarize and edge, writes both, skips detect, and returns no
detections; and the two flags are mutually exclusive at argument
validation. -/
theorem c8_shortcircuit_modes (w h : Int) (bufs : FrameBufs) (frame : Gray)
    (bz ed : Gray → Gray) (de : Gray → Gray → List (Keys × Pt) × Pois) :
    (_scan_full w h bufs frame
        { binary := true, edges := false, binarize := bz, edge := ed,
          detect := de } =
      ({ bufs with binary := bz frame }, [])) ∧
    (∀ b : Bool, _scan_full w h bufs frame
        { binary := b, edges := true, binarize := bz, edge := ed,
          detect := de } =
      ({ binary := bz frame, edges := ed (bz frame) }, [])) ∧
    validate_args argsBothFlags = some 2 := by
  refine ⟨rfl, fun b => ?_, rfl⟩
  simp [_scan_full]

/-- Claim C9 (code evaluation): the three invalid flag combinations and
the wrong color depth exit with code 2 before any frame processing; a
run with `--config` and valid input exits 0; but a valid run WITHOUT
`--config` hits `len(args.config)` with `args.config = None` in `main`
and dies with an uncaught `TypeError` instead of exiting 0. -/
theorem c9_exit_paths :
    programRun argsBothFlags 3 true = RunResult.exited 2 ∧
    programRun argsSaveBinary 3 true = RunResult.exited 2 ∧
    programRun argsSaveEdges 3 true = RunResult.exited 2 ∧
    programRun argsWithConfig 4 true = RunResult.exited 2 ∧
    programRun argsWithConfig 3 true = RunResult.exited 0 ∧
    programRun argsNoConfig 3 true = RunResult.typeError := by
  refine ⟨?_, ?_, ?_, ?_, ?_, ?_⟩ <;> decide

end Video

namespace Video

/-- The all-zero frame. -/
def zeroG : Gray := fun _ _ => 0

/-- A single concrete detection used by witnesses. -/
def detOne : Keys × Pt := ((0, 1, 2), (5, 5))

/-- A backend-complete pipeline whose detect stage always reports the
single detection `detOne`. -/
def pipeDetOne : Pipeline :=
  { binary := false, edges := false, binarize := fun _ => zeroG,
    edge := fun _ => zeroG, detect := fun _ _ => ([detOne], poisA) }

/-- A backend-complete pipeline whose detect stage never reports a
detection. -/
def pipeDetNone : Pipeline :=
  { binary := false, edges := false, binarize := fun _ => zeroG,
    edge := fun _ => zeroG, detect := fun _ _ => ([], poisA) }

/-- The loop state at the start of a frame with no full scan output. -/
def stateEmpty : StepState := { bufs := initBufs, newRois := [], trace := [] }

/-- A full-health test ROI with bounding box `[10, 50) × [10, 50)`. -/
def testRoi : ROI := ROI.make 1000 1000 30 30 (0, 0, 0) (0, 0, 0) 30

/-- A test ROI with health 5. -/
def testRoi5 : ROI := ROI.make 1000 1000 200 200 (0, 0, 0) (0, 0, 0) 5

/-- Claim C2: for a restricted-scan ROI whose sub-region scan returns at
least one detection, the step uses only the first reported detection,
translates the extracted vertices by `(r0, c0)`, builds a replacement
ROI with health `ROI_LIFESPAN`, and appends it if and only if it
intersects none of the ROIs already accepted this frame
(first-accepted-wins, otherwise silently dropped). -/
theorem c2_merge_first_detection (sr sc w h : Int) (frame : Gray)
    (pipe : Pipeline) (s : StepState) (roi : ROI) (bc : Keys × Pt)
    (rest : List (Keys × Pt)) (pois : Pois)
    (hdet : (_scan_roi sr sc s.bufs frame pipe roi).2 = (bc :: rest, pois)) :
    (roiStep sr sc w h frame pipe s roi).newRois =
      (if s.newRois.any (fun r => (mergedRoi w h roi bc pois).intersects r)
       then s.newRois
       else s.newRois ++ [mergedRoi w h roi bc pois]) ∧
    (mergedRoi w h roi bc pois).health = ROI_LIFESPAN ∧
    (mergedRoi w h roi bc pois).vy =
      (roi.r0 + (_get_vertices bc.1 pois).1.1,
       roi.r0 + (_get_vertices bc.1 pois).1.2.1,
       roi.r0 + (_get_vertices bc.1 pois).1.2.2) ∧
    (mergedRoi w h roi bc pois).vx =
      (roi.c0 + (_get_vertices bc.1 pois).2.1,
       roi.c0 + (_get_vertices bc.1 pois).2.2.1,
       roi.c0 + (_get_vertices bc.1 pois).2.2.2) := by
  have h1 : (_scan_roi sr sc s.bufs frame pipe roi).2.1 = bc :: rest := by
    rw [hdet]
  have h2 : (_scan_roi sr sc s.bufs frame pipe roi).2.2 = pois := by
    rw [hdet]
  refine ⟨?_, rfl, rfl, rfl⟩
  simp only [roiStep, h1, h2, _merge_rois]

/-- Witness for C2 at a concrete input: one detection, empty accepted
list, so the replacement is appended. -/
theorem c2_witness :
    (roiStep 1000 1000 1000 1000 zeroG pipeDetOne stateEmpty testRoi).newRois =
      [mergedRoi 1000 1000 testRoi detOne poisA] ∧
    (mergedRoi 1000 1000 testRoi detOne poisA).health = ROI_LIFESPAN := by
  have h := c2_merge_first_detection 1000 1000 1000 1000 zeroG pipeDetOne
    stateEmpty testRoi detOne [] poisA rfl
  refine ⟨?_, h.2.1⟩
  rw [h.1]
  rfl

/-- Claim C4: for a restricted-scan ROI whose sub-region scan returns no
detection: if it is not dead its health is decremented by exactly one
and the same ROI (all other fields unchanged) is carried forward; if it
is dead (health 0) it is neither punished nor re-added, so it drops out
of the active list. -/
theorem c4_punish_policy (sr sc w h : Int) (frame : Gray) (pipe : Pipeline)
    (s : StepState) (roi : ROI)
    (hdet : (_scan_roi sr sc s.bufs frame pipe roi).2.1 = []) :
    (roiStep sr sc w h frame pipe s roi).newRois =
      (if roi.dead then s.newRois else s.newRois ++ [roi.punish]) ∧
    (roi.punish).health = roi.health - 1 ∧
    (roi.dead = true ↔ roi.health = 0) ∧
    (roi.punish).vy = roi.vy ∧ (roi.punish).vx = roi.vx ∧
    (roi.punish).y = roi.y ∧ (roi.punish).x = roi.x ∧
    (roi.punish).r0 = roi.r0 ∧ (roi.punish).r1 = roi.r1 ∧
    (roi.punish).c0 = roi.c0 ∧ (roi.punish).c1 = roi.c1 := by
  refine ⟨?_, rfl, ?_, rfl, rfl, rfl, rfl, rfl, rfl, rfl, rfl⟩
  · simp only [roiStep, hdet]
  · simp [ROI.dead]

/-- Witness for C4 at a concrete input: no detection, live ROI, health
drops from 5 to 4 and the ROI is carried forward. -/
theorem c4_witness :
    (roiStep 1000 1000 1000 1000 zeroG pipeDetNone stateEmpty
        testRoi5).newRois = [testRoi5.punish] ∧
    (testRoi5.punish).health = testRoi5.health - 1 := by
  have h := c4_punish_policy 1000 1000 1000 1000 zeroG pipeDetNone stateEmpty
    testRoi5 rfl
  refine ⟨?_, h.2.1⟩
  rw [h.1]
  decide

end Video

namespace Video

/-- Every ROI produced by a full scan has full health. -/
theorem scan_full_health (w h : Int) (bufs : FrameBufs) (frame : Gray)
    (pipe : Pipeline) :
    ∀ r' ∈ (_scan_full w h bufs frame pipe).2, r'.health = ROI_LIFESPAN := by
  intro r' hr
  by_cases hb : (pipe.binary && !pipe.edges) = true
  · simp [_scan_full, hb] at hr
  · by_cases he : pipe.edges = true
    · simp [_scan_full, hb, he] at hr
    · have he' : pipe.edges = false := by
        simpa using he
      have hbin : pipe.binary = false := by
        rcases Bool.eq_false_or_eq_true pipe.binary with hx | hx
        · exact absurd (by simp [hx, he']) hb
        · exact hx
      have hscan : (_scan_full w h bufs frame pipe).2 =
          _find_rois w h
            (pipe.detect (pipe.edge (pipe.binarize frame))
              (pipe.binarize frame)).1
            (pipe.detect (pipe.edge (pipe.binarize frame))
              (pipe.binarize frame)).2 := by
        simp [_scan_full, hbin, he']
      rw [hscan] at hr
      simp only [_find_rois, List.mem_map] at hr
      obtain ⟨bc, -, heq⟩ := hr
      rw [← heq]
      rfl

/-- The ROIs of `rois` that are alive, after punishment: exactly the
candidates a frame may carry forward without re-confirmation. -/
def punishedLive (rois : List ROI) : List ROI :=
  (rois.filter (fun r => !r.dead)).map ROI.punish

/-- Soundness of the per-ROI loop: if every already-accepted ROI
satisfies `P`, every merged replacement satisfies `P`, and every
punished live ROI of the pending list satisfies `P`, then every ROI
accepted by the loop satisfies `P`. -/
theorem foldl_newRois_sound (sr sc w h : Int) (frame : Gray)
    (pipe : Pipeline) (P : ROI → Prop)
    (hmerge : ∀ (roi : ROI) (bc : Keys × Pt) (pois : Pois),
      P (mergedRoi w h roi bc pois))
    (l : List ROI) :
    (∀ roi ∈ l, roi.dead = false → P roi.punish) →
      ∀ (s : StepState), (∀ r' ∈ s.newRois, P r') →
        ∀ r' ∈ (List.foldl (roiStep sr sc w h frame pipe) s l).newRois,
          P r' := by
  induction l with
  | nil => intro _ s hs; simpa using hs
  | cons r rs ih =>
    intro hpun s hs
    rw [List.foldl_cons]
    apply ih (fun roi hroi hd => hpun roi (List.mem_cons_of_mem r hroi) hd)
    intro r' hr'
    simp only [roiStep] at hr'
    rcases hb : (_scan_roi sr sc s.bufs frame pipe r).2.1 with _ | ⟨bc, tl⟩
    · rw [hb] at hr'
      by_cases hd : r.dead = true
      · simp only [hd, if_true] at hr'
        exact hs r' hr'
      · have hd' : r.dead = false := by
          simpa using hd
        simp only [hd', Bool.false_eq_true, if_false, List.mem_append,
          List.mem_singleton] at hr'
        rcases hr' with hmem | hpu
        · exact hs r' hmem
        · rw [hpu]
          exact hpun r (List.mem_cons_self r rs) hd'
    · rw [hb] at hr'
      simp only [_merge_rois] at hr'
      by_cases hi : (s.newRois.any fun rr =>
          (mergedRoi w h r bc
            ((_scan_roi sr sc s.bufs frame pipe r).2.2)).intersects rr) = true
      · simp only [hi, if_true] at hr'
        exact hs r' hr'
      · have hi' : (s.newRois.any fun rr =>
            (mergedRoi w h r bc
              ((_scan_roi sr sc s.bufs frame pipe r).2.2)).intersects rr) =
            false := by
          simpa using hi
        simp only [hi', Bool.false_eq_true, if_false, List.mem_append,
          List.mem_singleton] at hr'
        rcases hr' with hmem | hme
        · exact hs r' hmem
        · rw [hme]
          exact hmerge r bc ((_scan_roi sr sc s.bufs frame pipe r).2.2)

/-- Claim C5: health stays in `[0, ROI_LIFESPAN]` across a frame step:
if every incoming ROI has health in range, every outgoing ROI either has
health exactly `ROI_LIFESPAN` (it was just created by the full scan or
re-confirmed by a restricted scan) or is a live carried-in ROI punished
by exactly one; in both cases the health stays in `[0, ROI_LIFESPAN]`. -/
theorem c5_health_invariant (sr sc w h : Int) (bufs : FrameBufs)
    (frame : Gray) (i : Nat) (pipe : Pipeline) (rois : List ROI)
    (hin : ∀ r ∈ rois, 0 ≤ r.health ∧ r.health ≤ ROI_LIFESPAN) :
    ∀ r' ∈ (_process sr sc w h bufs frame i pipe rois).newRois,
      (0 ≤ r'.health ∧ r'.health ≤ ROI_LIFESPAN) ∧
      (r'.health = ROI_LIFESPAN ∨ r' ∈ punishedLive rois) := by
  have hfull : (0 ≤ ROI_LIFESPAN ∧ ROI_LIFESPAN ≤ ROI_LIFESPAN) := by decide
  simp only [_process]
  apply foldl_newRois_sound
  · intro roi bc pois
    exact ⟨hfull, Or.inl rfl⟩
  · intro roi hroi hd
    have hb := hin roi hroi
    have hnz : roi.health ≠ 0 := by
      simpa [ROI.dead] using hd
    constructor
    · constructor
      · show 0 ≤ roi.health - 1
        omega
      · show roi.health - 1 ≤ ROI_LIFESPAN
        have : ROI_LIFESPAN = 30 := rfl
        omega
    · right
      simp only [punishedLive, List.mem_map]
      refine ⟨roi, ?_, rfl⟩
      simp only [List.mem_filter]
      exact ⟨hroi, by simp [hd]⟩
  · intro r' hr'
    by_cases hc : (decide (i % 15 = 0) || rois.isEmpty) = true
    · simp only [hc, if_true] at hr'
      have := scan_full_health w h bufs frame pipe r' hr'
      exact ⟨by rw [this]; exact hfull, Or.inl this⟩
    · simp only [hc, Bool.false_eq_true, if_false] at hr'
      simp at hr'

/-- Witness for C5 at a concrete input: one live carried-in ROI with
health 5 and no detections; the surviving ROI is the punished one,
with health 4 ∈ [0, 30]. -/
theorem c5_witness :
    ((0 ≤ (testRoi5.punish).health ∧
        (testRoi5.punish).health ≤ ROI_LIFESPAN) ∧
      ((testRoi5.punish).health = ROI_LIFESPAN ∨
        testRoi5.punish ∈ punishedLive [testRoi5])) := by
  have h := c5_health_invariant 1000 1000 1000 1000 initBufs zeroG 1
    pipeDetNone [testRoi5] (by decide)
  exact h testRoi5.punish (by decide)

end Video

namespace Video

/-- The bounding-box slice of `roi` as a coordinate predicate. -/
def inSliceB (roi : ROI) (r c : Int) : Bool :=
  decide (roi.r0 ≤ r) && decide (r < roi.r1) &&
  decide (roi.c0 ≤ c) && decide (c < roi.c1)

/-- The set of points `_draw_roi` may write for `roi`: the disc
outline, the decay disc, and the rectangle perimeter, all placed
relative to `(r0 - 1, c0 - 1)`. -/
def markerPt (sr sc : Int) (roi : ROI) (r c : Int) : Bool :=
  onCircPerimeter5 (roi.r0 - 1) (roi.c0 - 1) r c ||
  inDisc5 sr sc (roi.r0 - 1) (roi.c0 - 1) r c ||
  onRectPerimeter sr sc (roi.r0 - 1) roi.r1 (roi.c0 - 1) roi.c1 r c

/-- `_draw_roi` leaves every non-marker point unchanged. -/
theorem draw_roi_off_marker (sr sc : Int) (f : Gray) (roi : ROI) (val : Int)
    (r c : Int) (hm : markerPt sr sc roi r c = false) :
    _draw_roi sr sc f roi val r c = f r c := by
  simp only [markerPt, Bool.or_eq_false_iff] at hm
  obtain ⟨⟨h1, h2⟩, h3⟩ := hm
  simp [_draw_roi, h1, h2, h3]

/-- `_draw_roi` writes the marker value on the disc outline. -/
theorem draw_roi_on_circ (sr sc : Int) (f : Gray) (roi : ROI) (val : Int)
    (r c : Int)
    (hm : onCircPerimeter5 (roi.r0 - 1) (roi.c0 - 1) r c = true) :
    _draw_roi sr sc f roi val r c = val := by
  simp [_draw_roi, hm]

/-- `inSliceB` unfolded to the slice membership proposition used by
`writeSlice`. -/
theorem inSliceB_iff (roi : ROI) (r c : Int) :
    inSliceB roi r c = true ↔
      (roi.r0 ≤ r ∧ r < roi.r1 ∧ roi.c0 ≤ c ∧ c < roi.c1) := by
  simp [inSliceB]
  omega

/-- Claim C7 (amended): the pipeline results of a restricted scan are
written into the binary/edges buffers only inside the ROI's sub-region
(every non-slice, non-marker point is unchanged), and the marker is
stamped onto the buffer frames before each subsequent pipeline
invocation; at non-marker points of the sub-region the annotated binary
frame still carries the raw binarize output, but wherever the disc
outline crosses the sub-region the subsequent stages (edge, detect)
read the marker value 255 instead of the binarize output: only the
binarize stage receives data unaffected by the annotation. -/
theorem c7_scan_roi_buffers (sr sc : Int) (bufs : FrameBufs) (frame : Gray)
    (pipe : Pipeline) (roi : ROI) :
    (∀ r c, inSliceB roi r c = false → markerPt sr sc roi r c = false →
      scanRoiBinary sr sc bufs.binary frame pipe roi r c = bufs.binary r c ∧
      scanRoiEdges sr sc (scanRoiBinary sr sc bufs.binary frame pipe roi)
          bufs.edges pipe roi r c = bufs.edges r c) ∧
    (∀ r c, inSliceB roi (roi.r0 + r) (roi.c0 + c) = true →
      markerPt sr sc roi (roi.r0 + r) (roi.c0 + c) = false →
      subFrame (scanRoiBinary sr sc bufs.binary frame pipe roi) roi.r0
          roi.c0 r c =
        pipe.binarize (subFrame frame roi.r0 roi.c0) r c) ∧
    (∀ r c,
      onCircPerimeter5 (roi.r0 - 1) (roi.c0 - 1) (roi.r0 + r)
          (roi.c0 + c) = true →
      subFrame (scanRoiBinary sr sc bufs.binary frame pipe roi) roi.r0
          roi.c0 r c = 255) := by
  refine ⟨fun r c hs hm => ⟨?_, ?_⟩, fun r c hs hm => ?_, fun r c hm => ?_⟩
  · have hns : ¬(roi.r0 ≤ r ∧ r < roi.r1 ∧ roi.c0 ≤ c ∧ c < roi.c1) := by
      rw [← inSliceB_iff, hs]
      simp
    rw [scanRoiBinary, draw_roi_off_marker sr sc _ roi 255 r c hm, writeSlice,
      if_neg hns]
  · have hns : ¬(roi.r0 ≤ r ∧ r < roi.r1 ∧ roi.c0 ≤ c ∧ c < roi.c1) := by
      rw [← inSliceB_iff, hs]
      simp
    rw [scanRoiEdges, draw_roi_off_marker sr sc _ roi 255 r c hm, writeSlice,
      if_neg hns]
  · have hin : roi.r0 ≤ roi.r0 + r ∧ roi.r0 + r < roi.r1 ∧
        roi.c0 ≤ roi.c0 + c ∧ roi.c0 + c < roi.c1 :=
      (inSliceB_iff roi (roi.r0 + r) (roi.c0 + c)).mp hs
    show scanRoiBinary sr sc bufs.binary frame pipe roi (roi.r0 + r)
        (roi.c0 + c) = _
    rw [scanRoiBinary,
      draw_roi_off_marker sr sc _ roi 255 (roi.r0 + r) (roi.c0 + c) hm,
      writeSlice, if_pos hin]
    rw [show roi.r0 + r - roi.r0 = r from by ring,
      show roi.c0 + c - roi.c0 = c from by ring]
  · show scanRoiBinary sr sc bufs.binary frame pipe roi (roi.r0 + r)
        (roi.c0 + c) = 255
    rw [scanRoiBinary,
      draw_roi_on_circ sr sc _ roi 255 (roi.r0 + r) (roi.c0 + c) hm]

/-- Witness for C7 (amended) at concrete inputs: the point (0, 0) lies
outside `testRoi`'s slice and marker and both buffers keep their old
value there; the sub-region point (20, 20) is marker-free and carries
the raw binarize output; the sub-region point (2, 3) lies on the disc
outline and carries the marker value 255. -/
theorem c7_witness :
    scanRoiBinary 1000 1000 initBufs.binary zeroG pipeDetNone testRoi 0 0 =
      initBufs.binary 0 0 ∧
    scanRoiEdges 1000 1000
        (scanRoiBinary 1000 1000 initBufs.binary zeroG pipeDetNone testRoi)
        initBufs.edges pipeDetNone testRoi 0 0 = initBufs.edges 0 0 ∧
    subFrame (scanRoiBinary 1000 1000 initBufs.binary zeroG pipeDetNone
        testRoi) testRoi.r0 testRoi.c0 20 20 =
      pipeDetNone.binarize (subFrame zeroG testRoi.r0 testRoi.c0) 20 20 ∧
    subFrame (scanRoiBinary 1000 1000 initBufs.binary zeroG pipeDetNone
        testRoi) testRoi.r0 testRoi.c0 2 3 = 255 := by
  have hg := c7_scan_roi_buffers 1000 1000 initBufs zeroG pipeDetNone testRoi
  exact ⟨(hg.1 0 0 (by decide) (by decide)).1,
    (hg.1 0 0 (by decide) (by decide)).2,
    hg.2.1 20 20 (by decide) (by decide),
    hg.2.2 2 3 (by decide)⟩

/-- Claim C7 counterexample: the claim that every pipeline stage
receives input unaffected by the marker annotation is false.  The edge
stage reads `buf.binary[i, r0:r1, c0:c1]` AFTER `_draw_roi` stamped the
marker: at sub-region point (2, 3) — absolute (12, 13), on the disc
outline around (9, 9) — the slice handed to edge/detect holds the
marker value 255 while the binarize output there is 0. -/
theorem c7_counterexample :
    subFrame (scanRoiBinary 1000 1000 initBufs.binary zeroG pipeDetNone
        testRoi) testRoi.r0 testRoi.c0 2 3 = 255 ∧
    pipeDetNone.binarize (subFrame zeroG testRoi.r0 testRoi.c0) 2 3 = 0 ∧
    subFrame (scanRoiBinary 1000 1000 initBufs.binary zeroG pipeDetNone
        testRoi) testRoi.r0 testRoi.c0 2 3 ≠
      pipeDetNone.binarize (subFrame zeroG testRoi.r0 testRoi.c0) 2 3 := by
  refine ⟨?_, ?_, ?_⟩ <;> decide

end Video

namespace Video

/-- In either short-circuit mode the full scan yields no ROIs. -/
theorem scan_full_modes_nil (w h : Int) (bufs : FrameBufs) (frame : Gray)
    (pipe : Pipeline) (hp : pipe.binary = true ∨ pipe.edges = true) :
    (_scan_full w h bufs frame pipe).2 = [] := by
  by_cases he : pipe.edges = true
  · simp [_scan_full, he]
  · have he' : pipe.edges = false := by
      simpa using he
    have hb : pipe.binary = true := by
      rcases hp with hb | hx
      · exact hb
      · exact absurd hx he
    simp [_scan_full, hb, he']

/-- With an empty incoming ROI list and a short-circuit pipeline, a
frame step triggers exactly one full scan, produces no ROIs, and never
enters the restricted loop. -/
theorem process_modes_empty (sr sc w h : Int) (bufs : FrameBufs)
    (frame : Gray) (i : Nat) (pipe : Pipeline)
    (hp : pipe.binary = true ∨ pipe.edges = true) :
    (_process sr sc w h bufs frame i pipe []).newRois = [] ∧
    (_process sr sc w h bufs frame i pipe []).trace = [Event.fullScan] := by
  have h2 := scan_full_modes_nil w h bufs frame pipe hp
  constructor
  · simp [_process, h2]
  · simp [_process]

/-- Every frame of a short-circuit run reports an empty ROI list and a
trace consisting of the single full-scan event. -/
theorem processFrames_modes_empty (sr sc w h : Int) (pipe : Pipeline)
    (hp : pipe.binary = true ∨ pipe.edges = true) :
    ∀ (frames : List Gray) (i : Nat),
      ∀ e ∈ processFrames sr sc w h pipe i [] frames,
        e.1 = [] ∧ e.2 = [Event.fullScan]
  | [], i => by simp [processFrames]
  | frame :: rest, i => by
    intro e he
    have hstep := process_modes_empty sr sc w h initBufs frame i pipe hp
    simp only [processFrames] at he
    rw [hstep.1, hstep.2] at he
    rcases List.mem_cons.mp he with hmem | hmem
    · rw [hmem]
      exact ⟨rfl, rfl⟩
    · exact processFrames_modes_empty sr sc w h pipe hp rest (i + 1) e hmem

/-- Claim C10: in binary-only or edges-only mode the active ROI list is
empty at the start of every frame — the full scan returns no ROIs in
these modes, so every frame runs exactly one full scan (the empty-list
condition holds every frame), the per-ROI restricted loop never
executes (no `roiScan` event ever occurs, so detect is never invoked on
a sub-region), and no ROI is ever created or punished. -/
theorem c10_shortcircuit_empty (sr sc w h : Int) (be : Backend)
    (only_binary only_edges : Bool)
    (hmode : only_binary = true ∨ only_edges = true) (frames : List Gray) :
    ∀ e ∈ processVideo sr sc w h be only_binary only_edges frames,
      e.1 = [] ∧ e.2 = [Event.fullScan] := by
  apply processFrames_modes_empty
  left
  rcases hmode with hb | he
  · simp [mkPipeline, hb]
  · simp [mkPipeline, he]

/-- `true` iff every per-frame record carries an empty ROI list and the
single full-scan event. -/
def allEmptyFull (l : List (List ROI × List Event)) : Bool :=
  l.all fun e => e.1.isEmpty && decide (e.2 = [Event.fullScan])

/-- A backend whose detect stage never reports, used by witnesses. -/
def trivBackend : Backend :=
  { binarize := fun _ => zeroG, edge := fun _ => zeroG,
    detect := fun _ _ => ([], poisA) }

/-- Witness for C10 at a concrete input: a one-frame binary-only run. -/
theorem c10_witness :
    allEmptyFull (processVideo 10 10 10 10 trivBackend true false [zeroG]) =
      true := by
  have h := c10_shortcircuit_empty 10 10 10 10 trivBackend true false
    (Or.inl rfl) [zeroG]
  rw [allEmptyFull, List.all_eq_true]
  intro e he
  have he2 := h e he
  simp [he2.1, he2.2]

end Video
